import Mathlib

/-!
Verification development for the Synapse journaling application's LLM
orchestration pipeline.

The TypeScript sources are shallowly embedded as executable Lean
definitions:

* `src/lib/importAgent.ts` — `extractAndClassifyActivities` and
  `processJournalImport` (category validation, entry parsing, the
  per-entry loop, persistence with overwrite semantics, progress log).
* `src/lib/searchAgent.ts` — `generateSearchTerms` (query planner with
  heuristic fallback) and `rerankActivities` (batched re-ranking).
* `src/lib/reportAgent.ts` — `generateWeeklyReport`.

Interaction with the external chat-completion endpoint is modelled by an
oracle argument: each call site consumes one `LLMOutcome` (respectively
`PlannerOutcome`, `BatchOutcome`, `ReportOutcome`) describing what the
network/model/JSON layer produced for that call.  Database operations
(Prisma) are modelled by explicit state passing over a `DB` record, and
the fallibility of `prisma.activity.create` by a per-activity oracle.
The progress log (`enqueue` callback) is modelled as a list of structured
`LogMsg` values, one constructor per `enqueue` call site, carrying the
data that the source interpolates into the message text.
-/

namespace Synapse

/-! ### JavaScript string primitives

The string operations of the source (`trim`, `split(sep)`, `join`,
`substring`, `length`, `includes`) are modelled over the character list
of the Lean `String`, matching their JavaScript semantics on the ASCII
inputs the pipeline handles. -/

/-- `String.prototype.trim` on a character list: strip leading and
trailing whitespace. -/
def jsTrimList (cs : List Char) : List Char :=
  ((cs.dropWhile Char.isWhitespace).reverse.dropWhile Char.isWhitespace).reverse

/-- `String.prototype.trim`. -/
def jsTrim (s : String) : String := String.mk (jsTrimList s.toList)

/-- Worker for `String.prototype.split` with a one-character separator. -/
def jsSplitCharAux (sep : Char) : List Char → List Char → List String
  | [], acc => [String.mk acc.reverse]
  | c :: rest, acc =>
      if c = sep then String.mk acc.reverse :: jsSplitCharAux sep rest []
      else jsSplitCharAux sep rest (c :: acc)

/-- `s.split(sep)` for a one-character separator: always non-empty,
keeps empty pieces (as JavaScript does). -/
def jsSplitChar (sep : Char) (s : String) : List String :=
  jsSplitCharAux sep s.toList []

/-- `String.prototype.length` (code points; identical to JavaScript's
UTF-16 length on the ASCII data handled here). -/
def jsLength (s : String) : Nat := s.toList.length

/-- `s.substring(0, n)`. -/
def jsTake (s : String) (n : Nat) : String := String.mk (s.toList.take n)

/-- `Array.prototype.join(sep)`. -/
def joinWith (sep : String) : List String → String
  | [] => ""
  | [x] => x
  | x :: xs => x ++ sep ++ joinWith sep xs

/-- Substring test, modelling JavaScript `String.prototype.includes`. -/
def strIncludes (s pat : String) : Bool :=
  decide (pat.toList <:+: s.toList)

/-! ## Data model (importAgent.ts) -/

/-- A category row as fetched from the database (`src/types/models`):
`{id, name, description (nullable), isDefault}` (the `color`, `icon` and
timestamp fields never influence the pipeline and are omitted). -/
structure Category where
  id : String
  name : String
  description : Option String
  isDefault : Bool
deriving Repr, DecidableEq

/-- `ProcessedActivitySchema`: one activity extracted by the model. -/
structure ProcessedActivity where
  description : String
  duration : Option Int
  notes : Option String
  tags : String
  categoryId : String
deriving Repr, DecidableEq

/-- `JournalImportSchema`: the validated shape of one model response. -/
structure JournalImport where
  activities : List ProcessedActivity
deriving Repr, DecidableEq

/-- Outcome of one `openai.chat.completions.create` call in
`extractAndClassifyActivities`, as seen after the JSON / Zod layers:

* `requestError msg` — the request itself threw (network/transport);
* `emptyContent` — `completion.choices[0].message.content` was falsy;
* `parseError msg` — `JSON.parse(content)` threw with message `msg`;
* `schemaError` — `JournalImportSchema.safeParse` failed;
* `parsed data` — parsing and schema validation both succeeded. -/
inductive LLMOutcome
  | requestError (msg : String)
  | emptyContent
  | parseError (msg : String)
  | schemaError
  | parsed (data : JournalImport)
deriving Repr, DecidableEq

/-- One progress-log line (`enqueue` call), one constructor per call site
in `importAgent.ts`, carrying the interpolated data. -/
inductive LogMsg
  -- extractAndClassifyActivities
  | sendingToLLM (date : Option String)
  | llmEmptyResponse (date : Option String)
  | llmCompleted (date : Option String)
  | validatingResponse (date : Option String)
  | validationFailed (date : Option String)
  | validationFieldErrors (date : Option String)
  | validationFormErrors (date : Option String)
  | invalidCategoryIds (date : Option String) (ids : List String)
  | validCategoriesAre (date : Option String) (ids : List String)
  | extractedCount (date : Option String) (n : Nat)
  | activityDetail (date : Option String) (idx : Nat) (description : String)
      (categoryName : String) (durationLabel : String)
  | processingError (date : Option String) (msg : String)
  | jsonHint (date : Option String)
  | networkHint (date : Option String)
  -- processJournalImport
  | startingImport
  | textLength (n : Nat)
  | fetchingCategories
  | foundCategories (n : Nat)
  | foundCustomCategories (n : Nat)
  | validationFailedNoCustom
  | validationFailedNoDescriptions (names : List String)
  | validationPassed
  | usingCategory (name : String) (description : String)
  | parsingEntries
  | foundEntries (n : Nat)
  | noValidEntries
  | processingEntry (i : Nat) (total : Nat) (date : String)
  | contentPreview (s : String)
  | invalidDateFormat (date : String)
  | savingActivities (n : Nat)
  | removedExisting (n : Nat) (date : String)
  | savedActivity (j : Nat) (description : String)
  | saveActivityFailed (j : Nat) (msg : String)
  | savedEntry (date : String) (n : Nat)
  | dbErrorSaving (date : String) (msg : String)
  | summaryHeader
  | summarySuccess (n : Nat)
  | summaryFailed (n : Nat)
  | summaryTotalActivities (n : Nat)
  | summaryTime
  | importCompleted
  | importFailed
deriving Repr, DecidableEq

/-! ## extractAndClassifyActivities -/

/-- The `catch` block of `extractAndClassifyActivities`: log the error,
then add a hint when the message looks JSON-shaped or network-shaped. -/
def catchLogs (date : Option String) (msg : String) : List LogMsg :=
  [.processingError date msg]
    ++ (if strIncludes msg "JSON" then [.jsonHint date] else [])
    ++ (if strIncludes msg "network" || strIncludes msg "connection" then
          [.networkHint date] else [])

/-- `Array.prototype.join(', ')` on the invalid-id list. -/
def joinComma (xs : List String) : String :=
  joinWith ", " xs

/-- Duration label of the per-activity debug line:
`activity.duration ? `${activity.duration}m` : 'no duration'`
(JavaScript truthiness: `0` and `null` are falsy). -/
def durationLabel : Option Int → String
  | some d => if d = 0 then "no duration" else toString d ++ "m"
  | none => "no duration"

/-- The per-activity debug lines emitted after successful extraction. -/
def activityDetailLogs (date : Option String) (categories : List Category) :
    List ProcessedActivity → Nat → List LogMsg
  | [], _ => []
  | a :: rest, idx =>
      let categoryName :=
        ((categories.find? (fun c => c.id = a.categoryId)).map (·.name)).getD "Unknown"
      .activityDetail date idx a.description categoryName (durationLabel a.duration)
        :: activityDetailLogs date categories rest (idx + 1)

/-- `extractAndClassifyActivities(entryText, categories, enqueue, date)`:
sends the entry to the model (the outcome of that call is the `outcome`
argument), validates the response against `JournalImportSchema`, then
cross-checks that every `categoryId` is one of the supplied categories'
ids.  Returns the emitted log lines and `some data` on success, `none`
on any failure (every failure path throws into the `catch` block). -/
def extractAndClassifyActivities (outcome : LLMOutcome)
    (categories : List Category) (date : Option String) :
    List LogMsg × Option JournalImport :=
  match outcome with
  | .requestError msg =>
      ([.sendingToLLM date] ++ catchLogs date msg, none)
  | .emptyContent =>
      ([.sendingToLLM date, .llmEmptyResponse date]
        ++ catchLogs date "LLM returned an empty response.", none)
  | .parseError msg =>
      ([.sendingToLLM date, .llmCompleted date, .validatingResponse date]
        ++ catchLogs date msg, none)
  | .schemaError =>
      ([.sendingToLLM date, .llmCompleted date, .validatingResponse date,
        .validationFailed date, .validationFieldErrors date, .validationFormErrors date]
        ++ catchLogs date "LLM response did not match the required schema.", none)
  | .parsed data =>
      let validCategoryIds := categories.map (·.id)
      let invalidCategories :=
        (data.activities.filter (fun a => ¬ validCategoryIds.contains a.categoryId)).map
          (·.categoryId)
      if invalidCategories.isEmpty then
        ([.sendingToLLM date, .llmCompleted date, .validatingResponse date,
          .extractedCount date data.activities.length]
          ++ activityDetailLogs date categories data.activities 0, some data)
      else
        ([.sendingToLLM date, .llmCompleted date, .validatingResponse date,
          .invalidCategoryIds date invalidCategories,
          .validCategoriesAre date validCategoryIds.eraseDups]
          ++ catchLogs date
              ("LLM hallucinated invalid categoryIds: " ++ joinComma invalidCategories),
          none)

/-! ## Persistence model (Prisma calls in processJournalImport) -/

/-- An `Activity` row: the fields written by `prisma.activity.create`.
`tags` holds the names connected via `connectOrCreate`. -/
structure ActivityRecord where
  description : String
  duration : Option Int
  notes : Option String
  tags : List String
  categoryId : String
  journalEntryId : Nat
deriving Repr, DecidableEq

/-- The slice of the relational store the import path touches.
`journalEntries` are `(id, date)` rows, `tagNames` the `Tag` table. -/
structure DB where
  nextEntryId : Nat
  journalEntries : List (Nat × String)
  activities : List ActivityRecord
  tagNames : List String
deriving Repr, DecidableEq

/-- `activity.tags.split(',').map(t => t.trim()).filter(Boolean)`. -/
def splitTags (tags : String) : List String :=
  ((jsSplitChar ',' tags).map jsTrim).filter (fun t => t ≠ "")

/-- `prisma.journalEntry.upsert({where: {date}, update: {}, create: {date},
select: {id}})` — returns the row id (existing row if present, otherwise a
freshly created one) and the updated store. -/
def upsertJournalEntry (db : DB) (date : String) : Nat × DB :=
  match db.journalEntries.find? (fun p => p.2 = date) with
  | some p => (p.1, db)
  | none =>
      (db.nextEntryId,
       { db with
          nextEntryId := db.nextEntryId + 1,
          journalEntries := db.journalEntries ++ [(db.nextEntryId, date)] })

/-- `prisma.activity.deleteMany({where: {journalEntryId}})` — returns the
deleted count and the updated store. -/
def deleteActivitiesFor (db : DB) (entryId : Nat) : Nat × DB :=
  let deleted := db.activities.filter (fun a => a.journalEntryId = entryId)
  (deleted.length,
   { db with activities := db.activities.filter (fun a => ¬ a.journalEntryId = entryId) })

/-- The row written for one extracted activity. -/
def mkActivityRecord (entryId : Nat) (a : ProcessedActivity) : ActivityRecord :=
  { description := a.description
    duration := a.duration
    notes := a.notes
    tags := splitTags a.tags
    categoryId := a.categoryId
    journalEntryId := entryId }

/-- `prisma.activity.create` with `connectOrCreate` on the comma-split
tags: missing tag names are created, the row is appended. -/
def createActivity (db : DB) (entryId : Nat) (a : ProcessedActivity) : DB :=
  { db with
      activities := db.activities ++ [mkActivityRecord entryId a],
      tagNames := db.tagNames ++ (splitTags a.tags).filter (fun t => ¬ db.tagNames.contains t) }

/-- The inner `for (let j ...)` persistence loop.  `pFail j = some msg`
models `prisma.activity.create` throwing with message `msg` at activity
index `j`; the loop then stops (the error is re-thrown to the entry-level
`catch`), leaving the previously created rows in place.  Returns the
store, the logs, and `some (j, msg)` for the failing index, if any. -/
def saveActivities (pFail : Nat → Option String) (entryId : Nat) :
    List ProcessedActivity → Nat → DB → DB × List LogMsg × Option (Nat × String)
  | [], _, db => (db, [], none)
  | a :: rest, j, db =>
      match pFail j with
      | some msg => (db, [.saveActivityFailed j msg], some (j, msg))
      | none =>
          let db' := createActivity db entryId a
          let (dbFin, logs, fail) := saveActivities pFail entryId rest (j + 1) db'
          (dbFin, .savedActivity j a.description :: logs, fail)

/-- The database as the UI re-fetches it: the activities attached to the
day-entry row keyed by `date` (empty when no such row exists). -/
def fetchActivitiesForDate (db : DB) (date : String) : List ActivityRecord :=
  match db.journalEntries.find? (fun p => p.2 = date) with
  | some p => db.activities.filter (fun a => a.journalEntryId = p.1)
  | none => []

/-- Persistence of one successfully extracted entry (lines 259–299 of
`importAgent.ts`): upsert the day-entry row keyed by `date`, delete all
previously stored activities for it, then create each extracted activity
in order until one fails.  Returns the store, logs, and the failure, if
any. -/
def persistEntry (db : DB) (date : String) (acts : List ProcessedActivity)
    (pFail : Nat → Option String) : DB × List LogMsg × Option (Nat × String) :=
  let (entryId, db1) := upsertJournalEntry db date
  let (deletedCount, db2) := deleteActivitiesFor db1 entryId
  let removedLogs : List LogMsg :=
    if deletedCount > 0 then [.removedExisting deletedCount date] else []
  let (db3, saveLogs, fail) := saveActivities pFail entryId acts 0 db2
  (db3, removedLogs ++ saveLogs, fail)

/-! ## Journal-entry parsing -/

/-- The lookahead `(?=\d{4}-\d{2}-\d{2})`: does the character list start
with four digits, a dash, two digits, a dash, two digits? -/
def dateShapedPrefix : List Char → Bool
  | a :: b :: c :: d :: e :: f :: g :: h :: i :: j :: _ =>
      a.isDigit && b.isDigit && c.isDigit && d.isDigit && e = '-' &&
      f.isDigit && g.isDigit && h = '-' && i.isDigit && j.isDigit
  | _ => false

/-- Worker for `journalText.split(/\n(?=\d{4}-\d{2}-\d{2})/)`: cut at each
newline that is immediately followed by a date-shaped prefix (the newline
is consumed, the lookahead is not). -/
def splitDateBoundaries : List Char → List Char → List (List Char)
  | [], acc => [acc.reverse]
  | c :: rest, acc =>
      if c = '\n' && dateShapedPrefix rest then
        acc.reverse :: splitDateBoundaries rest []
      else
        splitDateBoundaries rest (c :: acc)

/-- `journalText.split(/\n(?=\d{4}-\d{2}-\d{2})/).map(e => e.trim()).filter(Boolean)`. -/
def parseEntries (journalText : String) : List String :=
  ((splitDateBoundaries journalText.toList []).map
      (fun cs => jsTrim (String.mk cs))).filter (fun e => e ≠ "")

/-- The per-entry date check `/^\d{4}-\d{2}-\d{2}$/.test(date)`: the whole
string is exactly date-shaped. -/
def isValidDateString (s : String) : Bool :=
  match s.toList with
  | [a, b, c, d, e, f, g, h, i, j] =>
      a.isDigit && b.isDigit && c.isDigit && d.isDigit && e = '-' &&
      f.isDigit && g.isDigit && h = '-' && i.isDigit && j.isDigit
  | _ => false

/-- The 100-character content preview logged for each entry. -/
def contentPreviewText (content : String) : String :=
  (jsTake content 100) ++ (if jsLength content > 100 then "..." else "")

/-! ## The import orchestrator -/

/-- Observable state of one `processJournalImport` run: the store, the
accumulated progress log, the three counters of the per-entry loop, and
an instrumentation counter of chat-completion requests issued. -/
structure RunState where
  db : DB
  logs : List LogMsg
  successCount : Nat
  failureCount : Nat
  totalActivities : Nat
  modelCalls : Nat
deriving Repr, DecidableEq

/-- The date token of one parsed entry: `lines[0].trim` where `lines`
is `entryText.split('\n')` (never empty). -/
def entryDate (entryText : String) : String :=
  jsTrim ((jsSplitChar '\n' entryText).headD "")

/-- The free text of one parsed entry: `lines.slice(1).join('\n')`. -/
def entryContent (entryText : String) : String :=
  joinWith "\n" ((jsSplitChar '\n' entryText).drop 1)

/-- One iteration of the per-entry loop (lines 226–309 of
`importAgent.ts`) on entry `entryText` at index `i` of `total`:
split off the first line as the date, validate its shape, run
extraction+classification (consuming `outcome`), and on success add the
extracted count to the total-activities counter and persist via
`persistEntry` (activity-create failures given by `pFail`); a
persistence failure is caught at entry level and counted as a failure. -/
def processEntry (categories : List Category) (i total : Nat) (entryText : String)
    (outcome : LLMOutcome) (pFail : Nat → Option String) (st : RunState) : RunState :=
  let date := entryDate entryText
  let headerLogs : List LogMsg :=
    [LogMsg.processingEntry (i + 1) total date,
     LogMsg.contentPreview (contentPreviewText (entryContent entryText))]
  if ¬ isValidDateString date then
    { st with logs := st.logs ++ headerLogs ++ [LogMsg.invalidDateFormat date],
              failureCount := st.failureCount + 1 }
  else
    match extractAndClassifyActivities outcome categories (some date) with
    | (exLogs, none) =>
        { st with logs := st.logs ++ headerLogs ++ exLogs,
                  modelCalls := st.modelCalls + 1,
                  failureCount := st.failureCount + 1 }
    | (exLogs, some data) =>
        let activityCount := data.activities.length
        match persistEntry st.db date data.activities pFail with
        | (dbNew, pLogs, none) =>
            { st with db := dbNew,
                      logs := st.logs ++ headerLogs ++ exLogs
                        ++ [LogMsg.savingActivities activityCount] ++ pLogs
                        ++ [LogMsg.savedEntry date activityCount],
                      modelCalls := st.modelCalls + 1,
                      totalActivities := st.totalActivities + activityCount,
                      successCount := st.successCount + 1 }
        | (dbNew, pLogs, some fail) =>
            { st with db := dbNew,
                      logs := st.logs ++ headerLogs ++ exLogs
                        ++ [LogMsg.savingActivities activityCount] ++ pLogs
                        ++ [LogMsg.dbErrorSaving date fail.2],
                      modelCalls := st.modelCalls + 1,
                      totalActivities := st.totalActivities + activityCount,
                      failureCount := st.failureCount + 1 }

/-- The per-entry loop over all parsed entries.  `oracle i` is the model
outcome for entry index `i`, `pFail i j` the persistence outcome for
activity `j` of entry `i`. -/
def runEntries (categories : List Category) (oracle : Nat → LLMOutcome)
    (pFail : Nat → Nat → Option String) (total : Nat) :
    List String → Nat → RunState → RunState
  | [], _, st => st
  | e :: rest, i, st =>
      runEntries categories oracle pFail total rest (i + 1)
        (processEntry categories i total e (oracle i) (pFail i) st)

/-- The final summary block (lines 316–326 of `importAgent.ts`). -/
def summaryLogs (st : RunState) : List LogMsg :=
  [LogMsg.summaryHeader, LogMsg.summarySuccess st.successCount, LogMsg.summaryFailed st.failureCount,
   LogMsg.summaryTotalActivities st.totalActivities, LogMsg.summaryTime]
    ++ [if st.successCount > 0 then LogMsg.importCompleted else LogMsg.importFailed]

/-- `processJournalImport(journalText, enqueue)`, with the category fetch
already resolved to `categories` (a fetch failure aborts before anything
else happens and is not modelled further): validate that classifiable
(non-default) categories exist and all carry non-blank descriptions,
parse the text into day-entries, run the per-entry loop, and emit the
summary block.  Every early `return` yields the state reached so far. -/
def processJournalImport (categories : List Category) (journalText : String)
    (oracle : Nat → LLMOutcome) (pFail : Nat → Nat → Option String)
    (db0 : DB) : RunState :=
  let st0 : RunState :=
    { db := db0,
      logs := [LogMsg.startingImport, LogMsg.textLength (jsLength journalText),
               LogMsg.fetchingCategories, LogMsg.foundCategories categories.length],
      successCount := 0, failureCount := 0, totalActivities := 0, modelCalls := 0 }
  let classifiableCategories := categories.filter (fun c => ¬ c.isDefault)
  let st0 := { st0 with logs := st0.logs ++
    [LogMsg.foundCustomCategories classifiableCategories.length] }
  if classifiableCategories.length = 0 then
    { st0 with logs := st0.logs ++ [LogMsg.validationFailedNoCustom] }
  else
    let categoriesWithoutDescription :=
      classifiableCategories.filter (fun c => jsTrim (c.description.getD "") = "")
    if categoriesWithoutDescription.length > 0 then
      { st0 with logs := st0.logs ++
        [LogMsg.validationFailedNoDescriptions (categoriesWithoutDescription.map (·.name))] }
    else
      let st1 := { st0 with logs :=
        (st0.logs ++ [LogMsg.validationPassed] ++ classifiableCategories.map
          (fun (c : Category) => LogMsg.usingCategory c.name (c.description.getD ""))) }
      let entries := parseEntries journalText
      let st2 := { st1 with logs := st1.logs ++ [LogMsg.parsingEntries, LogMsg.foundEntries entries.length] }
      if entries.length = 0 then
        { st2 with logs := st2.logs ++ [LogMsg.noValidEntries] }
      else
        let stFin := runEntries classifiableCategories oracle pFail entries.length entries 0 st2
        { stFin with logs := stFin.logs ++ summaryLogs stFin }

/-! ## Search agents (searchAgent.ts) -/

/-- The candidate `Activity` shape consumed by the search pipeline
(`journalEntry.date` is kept as its ISO string; only `id` influences the
reranker's control flow). -/
structure RActivity where
  id : String
  description : String
  duration : Option Int
  notes : Option String
  category : String
  date : String
  tags : List String
deriving Repr, DecidableEq

/-- Outcome of one `generateSearchTerms` model call, as seen after the
JSON layer: `failed` covers a thrown request/timeout error, an empty
content, and a `JSON.parse` failure (all land in the `catch`);
`parsedJson kws` means `JSON.parse` produced an object whose `keywords`
field is the given string array (`SearchTermsSchema.safeParse` — the
3-to-7-element bound — is applied by the function itself). -/
inductive PlannerOutcome
  | failed
  | parsedJson (kws : List String)
deriving Repr, DecidableEq

/-- The `catch` fallback of `generateSearchTerms`:
`query.split(' ').filter(word => word.length > 2)`. -/
def plannerFallback (query : String) : List String :=
  (jsSplitChar ' ' query).filter (fun w => jsLength w > 2)

/-- `SearchTermsSchema.safeParse` succeeds iff the keyword array has
between 3 and 7 elements (element type is already `List String`). -/
def searchTermsSchemaOk (kws : List String) : Bool :=
  3 ≤ kws.length && kws.length ≤ 7

/-- `generateSearchTerms(query)`: run the planner prompt through the
model; on a validated response return its keywords with blank entries
filtered out, on any failure fall back to the naive token split. -/
def generateSearchTerms (outcome : PlannerOutcome) (query : String) : List String :=
  match outcome with
  | .failed => plannerFallback query
  | .parsedJson kws =>
      if searchTermsSchemaOk kws then
        kws.filter (fun k => jsTrim k ≠ "")
      else
        plannerFallback query

/-- Outcome of one reranker batch call: `none` covers a thrown request
error, empty content, a `JSON.parse` failure and a `RerankSchema.safeParse`
failure (each makes the loop `continue`, skipping the batch); `some ids`
is the validated `ranked_ids` array. -/
abbrev BatchOutcome := Option (List String)

/-- Fuel-indexed worker for the batching loop
`for (let i = 0; i < activities.length; i += BATCH_SIZE)`. -/
def batchesFuel : Nat → List RActivity → List (List RActivity)
  | 0, _ => []
  | _, [] => []
  | fuel + 1, l@(_ :: _) => l.take 10 :: batchesFuel fuel (l.drop 10)

/-- The batches `activities.slice(i, i + 10)` for `i = 0, 10, 20, …`. -/
def batches (activities : List RActivity) : List (List RActivity) :=
  batchesFuel activities.length activities

/-- Concatenation of the validated `ranked_ids` of every batch, in batch
order (`allRankedIds.push(...batchRankedIds)`; a failed batch appends
nothing). -/
def collectRankedIds (oracle : Nat → BatchOutcome) : List (List RActivity) → Nat → List String
  | [], _ => []
  | _ :: rest, i =>
      (oracle i).getD [] ++ collectRankedIds oracle rest (i + 1)

/-- `new Map(activities.map(a => [a.id, a])).get(id)`: a JavaScript `Map`
keeps the last binding written for a key, so the lookup returns the last
activity with that id. -/
def mapGet (activities : List RActivity) (id : String) : Option RActivity :=
  activities.reverse.find? (fun a => a.id = id)

/-- `rerankActivities(query, activities)`: empty input short-circuits to
`[]`; otherwise the candidates are processed in batches of 10 (`oracle i`
is the outcome of batch `i`), the validated `ranked_ids` are concatenated
in batch order, and — when that accumulator is empty — the first 15
candidates of the original order are returned instead.  Otherwise the
accumulated ids are mapped back to activities, dropping unknown ids. -/
def rerankActivities (oracle : Nat → BatchOutcome) (activities : List RActivity) :
    List RActivity :=
  if activities.isEmpty then []
  else
    let allRankedIds := collectRankedIds oracle (batches activities) 0
    if allRankedIds.isEmpty then
      activities.take 15
    else
      allRankedIds.filterMap (fun id => mapGet activities id)

/-! ## Weekly report agent (reportAgent.ts) -/

/-- `timeAnalysis` of `WeeklyReportSchema`. -/
structure TimeAnalysis where
  totalMinutes : Int
  professionalMinutes : Int
  projectMinutes : Int
  lifeMinutes : Int
  breakdownRatio : String
deriving Repr, DecidableEq

/-- One `keyActivities` element of `WeeklyReportSchema`. -/
structure KeyActivity where
  categoryName : String
  description : String
  timeSpent : Option Int
deriving Repr, DecidableEq

/-- One `tagAnalysis` element of `WeeklyReportSchema`. -/
structure TagAnalysisEntry where
  tag : String
  minutes : Int
  count : Int
deriving Repr, DecidableEq

/-- `WeeklyReportContent = z.infer<typeof WeeklyReportSchema>`. -/
structure WeeklyReportContent where
  title : String
  summary : String
  timeAnalysis : TimeAnalysis
  keyActivities : List KeyActivity
  tagAnalysis : List TagAnalysisEntry
  insightsAndTrends : String
deriving Repr, DecidableEq

/-- The cardinality bounds of `WeeklyReportSchema` that the field types
alone do not capture: `keyActivities` has 3–5 elements, `tagAnalysis`
3–7. -/
def weeklyReportSchemaOk (d : WeeklyReportContent) : Bool :=
  3 ≤ d.keyActivities.length && d.keyActivities.length ≤ 5 &&
  3 ≤ d.tagAnalysis.length && d.tagAnalysis.length ≤ 7

/-- Outcome of the report model call: `failed` covers request error,
timeout, empty content and a `JSON.parse` failure; `parsedContent d`
means parsing produced the structurally typed value `d`
(`WeeklyReportSchema.safeParse`'s cardinality bounds are applied by the
function itself). -/
inductive ReportOutcome
  | failed
  | parsedContent (d : WeeklyReportContent)
deriving Repr, DecidableEq

/-- `generateWeeklyReport(activities)`: `null` on empty input; otherwise
run the model call and return the validated report, or `null` on any
failure (timeout, empty content, malformed JSON, schema mismatch). -/
def generateWeeklyReport (outcome : ReportOutcome) (activities : List RActivity) :
    Option WeeklyReportContent :=
  if activities.isEmpty then none
  else
    match outcome with
    | .failed => none
    | .parsedContent d =>
        if weeklyReportSchemaOk d then some d else none

/-! ## Theorems -/

/-- The invalid-id list of a parsed model response. -/
def invalidIdsOf (data : JournalImport) (categories : List Category) : List String :=
  (data.activities.filter
      (fun a => ¬ (categories.map (·.id)).contains a.categoryId)).map (·.categoryId)

/-- On a parsed response containing an activity with an unknown
`categoryId`, extraction logs the offending ids and returns `none`. -/
lemma extract_parsed_invalid {data : JournalImport} {categories : List Category}
    (date : Option String) {a : ProcessedActivity}
    (ha : a ∈ data.activities)
    (hbad : (categories.map (·.id)).contains a.categoryId = false) :
    extractAndClassifyActivities (.parsed data) categories date =
      ([.sendingToLLM date, .llmCompleted date, .validatingResponse date,
        .invalidCategoryIds date (invalidIdsOf data categories),
        .validCategoriesAre date (categories.map (·.id)).eraseDups]
        ++ catchLogs date
            ("LLM hallucinated invalid categoryIds: "
              ++ joinComma (invalidIdsOf data categories)), none)
      ∧ a.categoryId ∈ invalidIdsOf data categories := by
  have hmem : a.categoryId ∈ invalidIdsOf data categories := by
    refine List.mem_map.mpr ⟨a, List.mem_filter.mpr ⟨ha, ?_⟩, rfl⟩
    simp only [hbad]
    decide
  have hempty : (invalidIdsOf data categories).isEmpty = false := by
    rcases h : (invalidIdsOf data categories).isEmpty with _ | _
    · rfl
    · rw [List.isEmpty_iff.mp h] at hmem
      simp at hmem
  refine ⟨?_, hmem⟩
  simp only [extractAndClassifyActivities]
  rw [show ((data.activities.filter
      (fun a => ¬ (categories.map (·.id)).contains a.categoryId)).map
        (·.categoryId)) = invalidIdsOf data categories from rfl]
  rw [hempty]
  simp

/-- On a parsed response whose `categoryId`s are all known, extraction
succeeds and returns the parsed data unchanged. -/
lemma extract_parsed_valid {data : JournalImport} {categories : List Category}
    (date : Option String)
    (hok : invalidIdsOf data categories = []) :
    extractAndClassifyActivities (.parsed data) categories date =
      ([.sendingToLLM date, .llmCompleted date, .validatingResponse date,
        .extractedCount date data.activities.length]
        ++ activityDetailLogs date categories data.activities 0, some data) := by
  have hempty : (invalidIdsOf data categories).isEmpty = true := by
    rw [hok]; rfl
  simp only [extractAndClassifyActivities]
  rw [show ((data.activities.filter
      (fun a => ¬ (categories.map (·.id)).contains a.categoryId)).map
        (·.categoryId)) = invalidIdsOf data categories from rfl]
  rw [hempty]
  simp

/-- Extraction returns usable data only for a parsed response: every
other outcome yields `none`. -/
lemma extract_nonparsed_none {outcome : LLMOutcome} {categories : List Category}
    (date : Option String)
    (h : ∀ data, outcome ≠ .parsed data) :
    (extractAndClassifyActivities outcome categories date).2 = none := by
  cases outcome with
  | requestError msg => rfl
  | emptyContent => rfl
  | parseError msg => rfl
  | schemaError => rfl
  | parsed data => exact absurd rfl (h data)

/-- C1: when the validated model response for an entry contains at least
one activity whose `categoryId` is not among the supplied categories'
ids, the whole entry is rejected: extraction returns no data, the
per-entry iteration counts one failure (and no success), the offending
id appears in an `invalidCategoryIds` progress-log line, and the store
is left untouched — zero activities are persisted for that date. -/
theorem claim1_invalid_category_rejects_entry
    (categories : List Category) (i total : Nat) (entryText : String)
    (data : JournalImport) (pFail : Nat → Option String) (st : RunState)
    (a : ProcessedActivity)
    (hdate : isValidDateString (entryDate entryText) = true)
    (ha : a ∈ data.activities)
    (hbad : ((categories.map (·.id)).contains a.categoryId) = false) :
    (extractAndClassifyActivities (.parsed data) categories
        (some (entryDate entryText))).2 = none
      ∧ (processEntry categories i total entryText (.parsed data) pFail st).failureCount
          = st.failureCount + 1
      ∧ (processEntry categories i total entryText (.parsed data) pFail st).successCount
          = st.successCount
      ∧ (processEntry categories i total entryText (.parsed data) pFail st).db = st.db
      ∧ (processEntry categories i total entryText (.parsed data) pFail st).totalActivities
          = st.totalActivities
      ∧ (∃ ids, LogMsg.invalidCategoryIds (some (entryDate entryText)) ids
            ∈ (processEntry categories i total entryText (.parsed data) pFail st).logs
          ∧ a.categoryId ∈ ids) := by
  obtain ⟨hE, hmem⟩ := extract_parsed_invalid (some (entryDate entryText)) ha hbad
  have hpe : processEntry categories i total entryText (.parsed data) pFail st =
      { st with
          logs := st.logs ++
            [.processingEntry (i + 1) total (entryDate entryText),
             .contentPreview (contentPreviewText (entryContent entryText))]
            ++ (extractAndClassifyActivities (.parsed data) categories
                  (some (entryDate entryText))).1,
          modelCalls := st.modelCalls + 1,
          failureCount := st.failureCount + 1 } := by
    unfold processEntry
    rw [if_neg (by simp [hdate])]
    rw [hE]
  refine ⟨by rw [hE], ?_, ?_, ?_, ?_, ?_⟩
  · rw [hpe]
  · rw [hpe]
  · rw [hpe]
  · rw [hpe]
  · refine ⟨invalidIdsOf data categories, ?_, hmem⟩
    rw [hpe]
    simp only [hE]
    simp

/-- C1, witness for `claim1_invalid_category_rejects_entry` at a
concrete entry and model response. -/
theorem claim1_witness :
    (extractAndClassifyActivities
        (.parsed ⟨[⟨"Ghost", none, none, "", "cX"⟩]⟩)
        [⟨"c1", "Professional", some "Work tasks", false⟩]
        (some (entryDate "2024-07-25\nWORK: stuff"))).2 = none
      ∧ (processEntry [⟨"c1", "Professional", some "Work tasks", false⟩] 0 1
          "2024-07-25\nWORK: stuff" (.parsed ⟨[⟨"Ghost", none, none, "", "cX"⟩]⟩)
          (fun _ => none) ⟨⟨0, [], [], []⟩, [], 0, 0, 0, 0⟩).failureCount
        = (⟨⟨0, [], [], []⟩, [], 0, 0, 0, 0⟩ : RunState).failureCount + 1
      ∧ (processEntry [⟨"c1", "Professional", some "Work tasks", false⟩] 0 1
          "2024-07-25\nWORK: stuff" (.parsed ⟨[⟨"Ghost", none, none, "", "cX"⟩]⟩)
          (fun _ => none) ⟨⟨0, [], [], []⟩, [], 0, 0, 0, 0⟩).successCount
        = (⟨⟨0, [], [], []⟩, [], 0, 0, 0, 0⟩ : RunState).successCount
      ∧ (processEntry [⟨"c1", "Professional", some "Work tasks", false⟩] 0 1
          "2024-07-25\nWORK: stuff" (.parsed ⟨[⟨"Ghost", none, none, "", "cX"⟩]⟩)
          (fun _ => none) ⟨⟨0, [], [], []⟩, [], 0, 0, 0, 0⟩).db
        = (⟨⟨0, [], [], []⟩, [], 0, 0, 0, 0⟩ : RunState).db
      ∧ (processEntry [⟨"c1", "Professional", some "Work tasks", false⟩] 0 1
          "2024-07-25\nWORK: stuff" (.parsed ⟨[⟨"Ghost", none, none, "", "cX"⟩]⟩)
          (fun _ => none) ⟨⟨0, [], [], []⟩, [], 0, 0, 0, 0⟩).totalActivities
        = (⟨⟨0, [], [], []⟩, [], 0, 0, 0, 0⟩ : RunState).totalActivities
      ∧ (∃ ids, LogMsg.invalidCategoryIds (some (entryDate "2024-07-25\nWORK: stuff")) ids
            ∈ (processEntry [⟨"c1", "Professional", some "Work tasks", false⟩] 0 1
                "2024-07-25\nWORK: stuff" (.parsed ⟨[⟨"Ghost", none, none, "", "cX"⟩]⟩)
                (fun _ => none) ⟨⟨0, [], [], []⟩, [], 0, 0, 0, 0⟩).logs
          ∧ ("cX" : String) ∈ ids) :=
  claim1_invalid_category_rejects_entry
    [⟨"c1", "Professional", some "Work tasks", false⟩] 0 1
    "2024-07-25\nWORK: stuff" ⟨[⟨"Ghost", none, none, "", "cX"⟩]⟩
    (fun _ => none) ⟨⟨0, [], [], []⟩, [], 0, 0, 0, 0⟩
    ⟨"Ghost", none, none, "", "cX"⟩ (by decide) (by decide) (by decide)

/-- `mapGet` only returns activities of the list it searches. -/
lemma mapGet_mem {activities : List RActivity} {id : String} {x : RActivity}
    (h : mapGet activities id = some x) : x ∈ activities := by
  have := List.mem_of_find?_eq_some h
  exact List.mem_reverse.mp this

/-- C5: when the set of classifiable (non-default) categories is empty,
or some classifiable category lacks a non-empty description, the whole
run aborts up front: no model call is issued, the per-entry loop is
never entered (no `processingEntry` log line), all counters stay zero
and the store is untouched. -/
theorem claim5_config_abort
    (categories : List Category) (journalText : String)
    (oracle : Nat → LLMOutcome) (pFail : Nat → Nat → Option String) (db0 : DB)
    (h : categories.filter (fun c => ¬ c.isDefault) = []
         ∨ ∃ c ∈ categories.filter (fun c => ¬ c.isDefault),
             jsTrim (c.description.getD "") = "") :
    (processJournalImport categories journalText oracle pFail db0).modelCalls = 0
      ∧ (processJournalImport categories journalText oracle pFail db0).db = db0
      ∧ (processJournalImport categories journalText oracle pFail db0).successCount = 0
      ∧ (processJournalImport categories journalText oracle pFail db0).failureCount = 0
      ∧ (processJournalImport categories journalText oracle pFail db0).totalActivities = 0
      ∧ ∀ i t d, LogMsg.processingEntry i t d
          ∉ (processJournalImport categories journalText oracle pFail db0).logs := by
  unfold processJournalImport
  by_cases h0 : (categories.filter (fun c => ¬ c.isDefault)).length = 0
  · rw [if_pos h0]
    refine ⟨rfl, rfl, rfl, rfl, rfl, ?_⟩
    intro i t d hmem
    simp at hmem
  · rw [if_neg h0]
    have hex : ∃ c ∈ categories.filter (fun c => ¬ c.isDefault),
        jsTrim (c.description.getD "") = "" := by
      rcases h with h | h
      · exact absurd (by rw [h]; rfl) h0
      · exact h
    obtain ⟨c, hc, hcblank⟩ := hex
    have hpos : 0 < ((categories.filter (fun c => ¬ c.isDefault)).filter
        (fun c => jsTrim (c.description.getD "") = "")).length := by
      refine List.length_pos.mpr (List.ne_nil_of_mem (List.mem_filter.mpr ⟨hc, ?_⟩))
      simp [hcblank]
    rw [if_pos hpos]
    refine ⟨rfl, rfl, rfl, rfl, rfl, ?_⟩
    intro i t d hmem
    simp at hmem

/-- C5, witness for `claim5_config_abort`: one classifiable category
with a blank description. -/
theorem claim5_witness :
    (processJournalImport [⟨"c1", "Deep Work", some "", false⟩]
        "2024-07-25\nWORK:\n- did stuff" (fun _ => .requestError "e")
        (fun _ _ => none) ⟨0, [], [], []⟩).modelCalls = 0
      ∧ (processJournalImport [⟨"c1", "Deep Work", some "", false⟩]
          "2024-07-25\nWORK:\n- did stuff" (fun _ => .requestError "e")
          (fun _ _ => none) ⟨0, [], [], []⟩).db = ⟨0, [], [], []⟩
      ∧ (processJournalImport [⟨"c1", "Deep Work", some "", false⟩]
          "2024-07-25\nWORK:\n- did stuff" (fun _ => .requestError "e")
          (fun _ _ => none) ⟨0, [], [], []⟩).successCount = 0
      ∧ (processJournalImport [⟨"c1", "Deep Work", some "", false⟩]
          "2024-07-25\nWORK:\n- did stuff" (fun _ => .requestError "e")
          (fun _ _ => none) ⟨0, [], [], []⟩).failureCount = 0
      ∧ (processJournalImport [⟨"c1", "Deep Work", some "", false⟩]
          "2024-07-25\nWORK:\n- did stuff" (fun _ => .requestError "e")
          (fun _ _ => none) ⟨0, [], [], []⟩).totalActivities = 0
      ∧ ∀ i t d, LogMsg.processingEntry i t d
          ∉ (processJournalImport [⟨"c1", "Deep Work", some "", false⟩]
              "2024-07-25\nWORK:\n- did stuff" (fun _ => .requestError "e")
              (fun _ _ => none) ⟨0, [], [], []⟩).logs :=
  claim5_config_abort [⟨"c1", "Deep Work", some "", false⟩]
    "2024-07-25\nWORK:\n- did stuff" (fun _ => .requestError "e")
    (fun _ _ => none) ⟨0, [], [], []⟩
    (Or.inr ⟨⟨"c1", "Deep Work", some "", false⟩, by decide, by decide⟩)

/-- Does the character list contain a newline immediately followed by a
date-shaped prefix (i.e. a split boundary of the entry parser)? -/
def hasDateBoundary : List Char → Bool
  | [] => false
  | c :: rest => (c = '\n' && dateShapedPrefix rest) || hasDateBoundary rest

/-- Without a boundary, the splitter returns a single segment. -/
lemma splitDateBoundaries_no_boundary (cs : List Char) (acc : List Char)
    (h : hasDateBoundary cs = false) :
    splitDateBoundaries cs acc = [acc.reverse ++ cs] := by
  induction cs generalizing acc with
  | nil => simp [splitDateBoundaries]
  | cons c rest ih =>
      rw [hasDateBoundary] at h
      rcases Bool.or_eq_false_iff.mp h with ⟨h1, h2⟩
      unfold splitDateBoundaries
      rw [if_neg (by simp only [h1]; exact Bool.false_ne_true)]
      rw [ih _ h2]
      simp

/-- Without a boundary, parsing yields the trimmed input as a single
entry (or nothing when the input is blank). -/
lemma parseEntries_no_boundary (s : String) (h : hasDateBoundary s.toList = false) :
    parseEntries s = if jsTrim s = "" then [] else [jsTrim s] := by
  unfold parseEntries
  rw [splitDateBoundaries_no_boundary _ _ h]
  simp only [List.reverse_nil, List.nil_append, List.map_cons, List.map_nil]
  rw [show String.mk s.toList = s from rfl]
  by_cases h0 : jsTrim s = "" <;> simp [h0]

/-- C6, counterexample: `"hello"` is non-empty and contains no line
beginning with a date header, yet it parses as ONE entry (not zero), so
the orchestrator does not abort: it attempts per-entry processing and
counts the entry as failed. -/
theorem claim6_counterexample :
    ("hello" : String) ≠ ""
      ∧ (∀ line ∈ jsSplitChar '\n' "hello", dateShapedPrefix line.toList = false)
      ∧ parseEntries "hello" = ["hello"]
      ∧ (processJournalImport [⟨"c1", "P", some "d", false⟩] "hello"
          (fun _ => .requestError "net down") (fun _ _ => none)
          ⟨0, [], [], []⟩).failureCount = 1 := by
  refine ⟨by decide, by decide, by decide, by decide⟩

/-- Every branch of the loop body only appends to the log, starting with
the two per-entry header lines. -/
lemma processEntry_logs (categories : List Category) (i total : Nat) (e : String)
    (outcome : LLMOutcome) (pFail : Nat → Option String) (st : RunState) :
    ∃ tail, (processEntry categories i total e outcome pFail st).logs
      = st.logs ++ (LogMsg.processingEntry (i + 1) total (entryDate e)
          :: LogMsg.contentPreview (contentPreviewText (entryContent e)) :: tail) := by
  unfold processEntry
  dsimp only
  split
  · exact ⟨[LogMsg.invalidDateFormat (entryDate e)], by simp⟩
  · generalize extractAndClassifyActivities outcome categories (some (entryDate e)) = E
    obtain ⟨exLogs, exRes⟩ := E
    cases exRes with
    | none => exact ⟨exLogs, by simp⟩
    | some data =>
        dsimp only
        generalize persistEntry st.db (entryDate e) data.activities pFail = P
        obtain ⟨db2, pLogs, fail⟩ := P
        cases fail with
        | none =>
            exact ⟨exLogs ++ [LogMsg.savingActivities data.activities.length] ++ pLogs
              ++ [LogMsg.savedEntry (entryDate e) data.activities.length], by simp⟩
        | some f =>
            exact ⟨exLogs ++ [LogMsg.savingActivities data.activities.length] ++ pLogs
              ++ [LogMsg.dbErrorSaving (entryDate e) f.2], by simp⟩

/-- The loop only appends to the log it starts from. -/
lemma runEntries_logs (categories : List Category) (oracle : Nat → LLMOutcome)
    (pFail : Nat → Nat → Option String) (total : Nat) (entries : List String) :
    ∀ (i : Nat) (st : RunState), ∃ suffix,
      (runEntries categories oracle pFail total entries i st).logs
        = st.logs ++ suffix := by
  induction entries with
  | nil => intro i st; exact ⟨[], by simp [runEntries]⟩
  | cons e rest ih =>
      intro i st
      rw [runEntries]
      obtain ⟨sfx, hB⟩ := ih (i + 1) (processEntry categories i total e (oracle i) (pFail i) st)
      obtain ⟨tail, hA⟩ := processEntry_logs categories i total e (oracle i) (pFail i) st
      refine ⟨(LogMsg.processingEntry (i + 1) total (entryDate e)
          :: LogMsg.contentPreview (contentPreviewText (entryContent e)) :: tail) ++ sfx, ?_⟩
      rw [hB, hA]
      simp

/-- The first parsed entry always gets its per-entry header line. -/
lemma runEntries_first_entry_log (categories : List Category)
    (oracle : Nat → LLMOutcome) (pFail : Nat → Nat → Option String)
    (total : Nat) (e : String) (rest : List String) (i : Nat) (st : RunState) :
    LogMsg.processingEntry (i + 1) total (entryDate e)
      ∈ (runEntries categories oracle pFail total (e :: rest) i st).logs := by
  rw [runEntries]
  obtain ⟨sfx, hB⟩ := runEntries_logs categories oracle pFail total rest (i + 1)
    (processEntry categories i total e (oracle i) (pFail i) st)
  rw [hB]
  obtain ⟨tail, hA⟩ := processEntry_logs categories i total e (oracle i) (pFail i) st
  rw [hA]
  simp

/-- C6 (amended): parsing splits on newline-before-date-header
boundaries, trims segments and drops blank ones, and the orchestrator
aborts — untouched store, zero model calls, zero counters, no per-entry
processing — when zero entries parse.  An input containing no date
boundary parses to zero day-entries exactly when it is blank after
trimming; otherwise it parses as exactly one day-entry, the whole
trimmed text, and a run that parses any entry does not abort: per-entry
processing is attempted (the first entry's progress-log header line is
emitted), with the entry's trimmed first line then subject to the
per-entry date validation. -/
theorem claim6_parse_and_abort :
    (∀ (categories : List Category) (journalText : String)
        (oracle : Nat → LLMOutcome) (pFail : Nat → Nat → Option String) (db0 : DB),
      categories.filter (fun c => ¬ c.isDefault) ≠ [] →
      (categories.filter (fun c => ¬ c.isDefault)).filter
          (fun c => jsTrim (c.description.getD "") = "") = [] →
      parseEntries journalText = [] →
      (processJournalImport categories journalText oracle pFail db0).modelCalls = 0
        ∧ (processJournalImport categories journalText oracle pFail db0).db = db0
        ∧ (processJournalImport categories journalText oracle pFail db0).successCount = 0
        ∧ (processJournalImport categories journalText oracle pFail db0).failureCount = 0
        ∧ LogMsg.noValidEntries
            ∈ (processJournalImport categories journalText oracle pFail db0).logs
        ∧ ∀ i t d, LogMsg.processingEntry i t d
            ∉ (processJournalImport categories journalText oracle pFail db0).logs)
      ∧ (∀ s : String, hasDateBoundary s.toList = false →
          parseEntries s = if jsTrim s = "" then [] else [jsTrim s])
      ∧ (∀ (categories : List Category) (journalText : String)
          (oracle : Nat → LLMOutcome) (pFail : Nat → Nat → Option String) (db0 : DB),
        categories.filter (fun c => ¬ c.isDefault) ≠ [] →
        (categories.filter (fun c => ¬ c.isDefault)).filter
            (fun c => jsTrim (c.description.getD "") = "") = [] →
        parseEntries journalText ≠ [] →
        LogMsg.processingEntry 1 (parseEntries journalText).length
            (entryDate ((parseEntries journalText).headD ""))
          ∈ (processJournalImport categories journalText oracle pFail db0).logs) := by
  refine ⟨?_, parseEntries_no_boundary, ?_⟩
  · intro categories journalText oracle pFail db0 h1 h2 h3
    unfold processJournalImport
    rw [if_neg (by simpa [List.length_eq_zero] using h1)]
    rw [if_neg (by rw [h2]; simp)]
    rw [if_pos (by rw [h3]; rfl)]
    refine ⟨rfl, rfl, rfl, rfl, by simp, ?_⟩
    intro i t d hmem
    simp at hmem
  · intro categories journalText oracle pFail db0 h1 h2 h3
    unfold processJournalImport
    rw [if_neg (by simpa [List.length_eq_zero] using h1)]
    rw [if_neg (by rw [h2]; simp)]
    rw [if_neg (by simpa [List.length_eq_zero] using h3)]
    rcases hpe : parseEntries journalText with _ | ⟨e, rest⟩
    · exact absurd hpe h3
    · dsimp only
      exact List.mem_append_left _
        (runEntries_first_entry_log _ oracle pFail _ e rest 0 _)

/-- C6, witness for `claim6_parse_and_abort`: the boundary-free input
`"hello"` parses to its single trimmed segment, and a run on it attempts
per-entry processing. -/
theorem claim6_witness :
    (parseEntries "hello" = if jsTrim "hello" = "" then [] else [jsTrim "hello"])
      ∧ LogMsg.processingEntry 1 (parseEntries "hello").length
          (entryDate ((parseEntries "hello").headD ""))
        ∈ (processJournalImport [⟨"c1", "P", some "d", false⟩] "hello"
            (fun _ => .requestError "net down") (fun _ _ => none)
            ⟨0, [], [], []⟩).logs :=
  ⟨claim6_parse_and_abort.2.1 "hello" (by decide),
   claim6_parse_and_abort.2.2 [⟨"c1", "P", some "d", false⟩] "hello"
     (fun _ => .requestError "net down") (fun _ _ => none) ⟨0, [], [], []⟩
     (by decide) (by decide) (by decide)⟩

/-- When no `activity.create` fails, the persistence loop appends the
rows for all activities in order, touches no other table, and reports no
failure. -/
lemma saveActivities_all_none (pFail : Nat → Option String) (entryId : Nat)
    (acts : List ProcessedActivity) (j : Nat) (db : DB)
    (h : ∀ k, pFail k = none) :
    (saveActivities pFail entryId acts j db).1.activities
        = db.activities ++ acts.map (mkActivityRecord entryId)
      ∧ (saveActivities pFail entryId acts j db).1.journalEntries = db.journalEntries
      ∧ (saveActivities pFail entryId acts j db).1.nextEntryId = db.nextEntryId
      ∧ (saveActivities pFail entryId acts j db).2.2 = none := by
  induction acts generalizing j db with
  | nil => simp [saveActivities]
  | cons a rest ih =>
      simp only [saveActivities, h j]
      obtain ⟨h1, h2, h3, h4⟩ := ih (j + 1) (createActivity db entryId a)
      generalize hS : saveActivities pFail entryId rest (j + 1)
        (createActivity db entryId a) = S at h1 h2 h3 h4
      obtain ⟨dbFin, logs, fail⟩ := S
      dsimp only at h1 h2 h3 h4 ⊢
      refine ⟨?_, ?_, ?_, h4⟩
      · rw [h1]
        simp [createActivity]
      · rw [h2]; rfl
      · rw [h3]; rfl

/-- When some `activity.create` within range fails, the persistence loop
reports a failure. -/
lemma saveActivities_fails (pFail : Nat → Option String) (entryId : Nat)
    (acts : List ProcessedActivity) (j : Nat) (db : DB)
    (h : ∃ k, k < acts.length ∧ pFail (j + k) ≠ none) :
    (saveActivities pFail entryId acts j db).2.2 ≠ none := by
  induction acts generalizing j db with
  | nil =>
      obtain ⟨k, hk, _⟩ := h
      exact absurd hk (by simp)
  | cons a rest ih =>
      rcases hpj : pFail j with _ | msg
      · obtain ⟨k, hk, hne⟩ := h
        cases k with
        | zero => rw [Nat.add_zero] at hne; exact absurd hpj hne
        | succ k' =>
            have hrec := ih (j + 1) (createActivity db entryId a)
              ⟨k', by simpa using Nat.lt_of_succ_lt_succ (by simpa using hk),
                by rw [show j + 1 + k' = j + (k' + 1) by omega]; exact hne⟩
            simp only [saveActivities, hpj]
            generalize hS : saveActivities pFail entryId rest (j + 1)
              (createActivity db entryId a) = S at hrec
            obtain ⟨dbFin, logs, fail⟩ := S
            exact hrec
      · simp [saveActivities, hpj]

/-- `find?` skips a prefix in which nothing matches. -/
lemma find?_append_of_none {α : Type} (p : α → Bool) {l1 : List α} (l2 : List α)
    (h : l1.find? p = none) : (l1 ++ l2).find? p = l2.find? p := by
  induction l1 with
  | nil => simp
  | cons a l ih =>
      cases hpa : p a
      · simp only [List.cons_append, List.find?_cons, hpa] at h ⊢
        exact ih h
      · simp only [List.find?_cons, hpa] at h
        exact Option.noConfusion h

/-- Deleting the rows of an entry id leaves nothing with that id. -/
lemma filter_after_delete (l : List ActivityRecord) (k : Nat) :
    (l.filter (fun a => ¬ a.journalEntryId = k)).filter
        (fun a => a.journalEntryId = k) = [] := by
  induction l with
  | nil => rfl
  | cons a l ih =>
      by_cases hk : a.journalEntryId = k
      · simp [List.filter_cons, hk, ih]
      · simp [List.filter_cons, hk, ih]

/-- Every row written for an entry id passes the fetch filter. -/
lemma filter_map_mk (acts : List ProcessedActivity) (entryId : Nat) :
    (acts.map (mkActivityRecord entryId)).filter
        (fun a => a.journalEntryId = entryId) = acts.map (mkActivityRecord entryId) := by
  induction acts with
  | nil => rfl
  | cons a rest ih => simp [List.filter_cons, mkActivityRecord, ih]

/-- C7: re-importing a date is an idempotent replace.  Whatever the
prior contents of the store (including earlier imports of the same
date), persisting a successfully extracted entry with `N` activities and
no create failure reports no error, and re-fetching that date afterwards
yields exactly the `N` freshly written rows, in order, with the
extracted description/duration/notes/categoryId and the comma-split
tags. -/
theorem claim7_persist_round_trip (db : DB) (date : String)
    (acts : List ProcessedActivity) (pFail : Nat → Option String)
    (h : ∀ j, pFail j = none) :
    (persistEntry db date acts pFail).2.2 = none
      ∧ ∃ entryId,
          fetchActivitiesForDate (persistEntry db date acts pFail).1 date
            = acts.map (mkActivityRecord entryId) := by
  unfold persistEntry upsertJournalEntry
  rcases hfind : db.journalEntries.find? (fun p => p.2 = date) with _ | p
  · rw [hfind]
    dsimp only [deleteActivitiesFor]
    obtain ⟨h1, h2, h3, h4⟩ := saveActivities_all_none pFail db.nextEntryId acts 0
      { db with
          nextEntryId := db.nextEntryId + 1,
          journalEntries := db.journalEntries ++ [(db.nextEntryId, date)],
          activities :=
            (db.activities.filter (fun a => ¬ a.journalEntryId = db.nextEntryId)) } h
    generalize hS : saveActivities pFail db.nextEntryId acts 0
      { db with
          nextEntryId := db.nextEntryId + 1,
          journalEntries := db.journalEntries ++ [(db.nextEntryId, date)],
          activities :=
            (db.activities.filter (fun a => ¬ a.journalEntryId = db.nextEntryId)) }
      = S at h1 h2 h3 h4 ⊢
    obtain ⟨dbFin, logs, fail⟩ := S
    dsimp only
    refine ⟨h4, db.nextEntryId, ?_⟩
    dsimp only at h1 h2
    unfold fetchActivitiesForDate
    rw [h2, find?_append_of_none _ _ hfind]
    rw [show ([(db.nextEntryId, date)].find? (fun p => p.2 = date))
      = some (db.nextEntryId, date) by simp [List.find?_cons]]
    rw [h1]
    dsimp only
    rw [List.filter_append, filter_after_delete, filter_map_mk]
    rfl
  · rw [hfind]
    dsimp only [deleteActivitiesFor]
    obtain ⟨h1, h2, h3, h4⟩ := saveActivities_all_none pFail p.1 acts 0
      { db with activities :=
          (db.activities.filter (fun a => ¬ a.journalEntryId = p.1)) } h
    generalize hS : saveActivities pFail p.1 acts 0
      { db with activities :=
          (db.activities.filter (fun a => ¬ a.journalEntryId = p.1)) } = S at h1 h2 h3 h4 ⊢
    obtain ⟨dbFin, logs, fail⟩ := S
    dsimp only
    refine ⟨h4, p.1, ?_⟩
    dsimp only at h1 h2
    unfold fetchActivitiesForDate
    rw [h2, hfind]
    rw [h1]
    dsimp only
    rw [List.filter_append, filter_after_delete, filter_map_mk]
    rfl

/-- C7, witness for `claim7_persist_round_trip`: a store that already
holds an older version of the same date. -/
theorem claim7_witness :
    (persistEntry
        ⟨1, [(0, "2024-07-25")],
          [⟨"old", none, none, [], "c1", 0⟩], ["old"]⟩
        "2024-07-25" [⟨"Fixed bug", some 90, none, "bug,fix", "c1"⟩]
        (fun _ => none)).2.2 = none
      ∧ ∃ entryId,
          fetchActivitiesForDate
              (persistEntry
                ⟨1, [(0, "2024-07-25")],
                  [⟨"old", none, none, [], "c1", 0⟩], ["old"]⟩
                "2024-07-25" [⟨"Fixed bug", some 90, none, "bug,fix", "c1"⟩]
                (fun _ => none)).1 "2024-07-25"
            = [⟨"Fixed bug", some 90, none, "bug,fix", "c1"⟩].map
                (mkActivityRecord entryId) :=
  claim7_persist_round_trip
    ⟨1, [(0, "2024-07-25")], [⟨"old", none, none, [], "c1", 0⟩], ["old"]⟩
    "2024-07-25" [⟨"Fixed bug", some 90, none, "bug,fix", "c1"⟩]
    (fun _ => none) (fun _ => rfl)

/-- With no create failure, `persistEntry` reports no failure. -/
lemma persistEntry_fail_none (db : DB) (date : String)
    (acts : List ProcessedActivity) (pFail : Nat → Option String)
    (h : ∀ j, pFail j = none) :
    (persistEntry db date acts pFail).2.2 = none := by
  unfold persistEntry
  generalize upsertJournalEntry db date = U
  obtain ⟨entryId, db1⟩ := U
  dsimp only
  generalize deleteActivitiesFor db1 entryId = D
  obtain ⟨cnt, db2⟩ := D
  dsimp only
  obtain ⟨-, -, -, h4⟩ := saveActivities_all_none pFail entryId acts 0 db2 h
  generalize hS : saveActivities pFail entryId acts 0 db2 = S at h4
  obtain ⟨db3, saveLogs, fail⟩ := S
  exact h4

/-- With a create failure inside the activity range, `persistEntry`
reports a failure. -/
lemma persistEntry_fail_some (db : DB) (date : String)
    (acts : List ProcessedActivity) (pFail : Nat → Option String)
    (h : ∃ k, k < acts.length ∧ pFail k ≠ none) :
    (persistEntry db date acts pFail).2.2 ≠ none := by
  unfold persistEntry
  generalize upsertJournalEntry db date = U
  obtain ⟨entryId, db1⟩ := U
  dsimp only
  generalize deleteActivitiesFor db1 entryId = D
  obtain ⟨cnt, db2⟩ := D
  dsimp only
  obtain ⟨k, hk, hne⟩ := h
  have h4 := saveActivities_fails pFail entryId acts 0 db2
    ⟨k, hk, by simpa using hne⟩
  generalize hS : saveActivities pFail entryId acts 0 db2 = S at h4
  obtain ⟨db3, saveLogs, fail⟩ := S
  exact h4

/-- C8, counterexample: a run whose single entry extracts one activity
but fails at persistence ends with `successCount = 0` (no full success)
yet `totalActivities = 1` — the total-activities counter was incremented
before persistence, contradicting the claim that it is incremented only
on an entry's full success. -/
theorem claim8_counterexample :
    (processJournalImport [⟨"c1", "Professional", some "Work tasks", false⟩]
        "2024-07-25\nfoo"
        (fun _ => .parsed ⟨[⟨"Fixed bug", some 90, none, "bug,fix", "c1"⟩]⟩)
        (fun _ _ => some "disk full") ⟨0, [], [], []⟩).successCount = 0
      ∧ (processJournalImport [⟨"c1", "Professional", some "Work tasks", false⟩]
          "2024-07-25\nfoo"
          (fun _ => .parsed ⟨[⟨"Fixed bug", some 90, none, "bug,fix", "c1"⟩]⟩)
          (fun _ _ => some "disk full") ⟨0, [], [], []⟩).totalActivities = 1 := by
  refine ⟨by decide, by decide⟩

/-- C8 (amended): the success counter is incremented exactly on an
entry's full success (valid date, valid extraction, every activity
persisted), but the total-activities counter is incremented as soon as
extraction succeeds — before persistence — so an entry whose persistence
fails still contributes its extracted count; and a run that reaches the
per-entry loop ends with the summary block (succeeded, failed, total
activities, elapsed time, final status) as its final log lines, built
from exactly these counters. -/
theorem claim8_counters_and_summary :
    (∀ (categories : List Category) (i total : Nat) (entryText : String)
        (data : JournalImport) (pFail : Nat → Option String) (st : RunState),
      isValidDateString (entryDate entryText) = true →
      invalidIdsOf data categories = [] →
      (processEntry categories i total entryText (.parsed data) pFail st).totalActivities
          = st.totalActivities + data.activities.length
        ∧ ((∀ j, pFail j = none) →
            (processEntry categories i total entryText (.parsed data) pFail st).successCount
                = st.successCount + 1
              ∧ (processEntry categories i total entryText (.parsed data) pFail st).failureCount
                = st.failureCount)
        ∧ ((∃ k, k < data.activities.length ∧ pFail k ≠ none) →
            (processEntry categories i total entryText (.parsed data) pFail st).successCount
                = st.successCount
              ∧ (processEntry categories i total entryText (.parsed data) pFail st).failureCount
                = st.failureCount + 1))
      ∧ (∀ (categories : List Category) (journalText : String)
          (oracle : Nat → LLMOutcome) (pFail : Nat → Nat → Option String) (db0 : DB),
        categories.filter (fun c => ¬ c.isDefault) ≠ [] →
        (categories.filter (fun c => ¬ c.isDefault)).filter
            (fun c => jsTrim (c.description.getD "") = "") = [] →
        parseEntries journalText ≠ [] →
        ∃ pre, (processJournalImport categories journalText oracle pFail db0).logs
          = pre
            ++ ([.summaryHeader,
                 .summarySuccess
                   (processJournalImport categories journalText oracle pFail db0).successCount,
                 .summaryFailed
                   (processJournalImport categories journalText oracle pFail db0).failureCount,
                 .summaryTotalActivities
                   (processJournalImport categories journalText oracle pFail db0).totalActivities,
                 .summaryTime]
              ++ [if (processJournalImport categories journalText oracle pFail db0).successCount > 0
                  then .importCompleted else .importFailed])) := by
  constructor
  · intro categories i total entryText data pFail st hdate hok
    have hE := extract_parsed_valid (some (entryDate entryText)) hok
    unfold processEntry
    rw [if_neg (by simp [hdate])]
    rw [hE]
    dsimp only
    generalize hP : persistEntry st.db (entryDate entryText) data.activities pFail = P
    obtain ⟨db', pLogs, fail⟩ := P
    cases fail with
    | none =>
        dsimp only
        refine ⟨rfl, fun _ => ⟨rfl, rfl⟩, ?_⟩
        intro hex
        have := persistEntry_fail_some st.db (entryDate entryText) data.activities pFail hex
        rw [hP] at this
        exact absurd rfl this
    | some f =>
        dsimp only
        refine ⟨rfl, ?_, fun _ => ⟨rfl, rfl⟩⟩
        intro hall
        have := persistEntry_fail_none st.db (entryDate entryText) data.activities pFail hall
        rw [hP] at this
        exact Option.noConfusion this
  · intro categories journalText oracle pFail db0 h1 h2 h3
    unfold processJournalImport
    rw [if_neg (by simpa [List.length_eq_zero] using h1)]
    rw [if_neg (by rw [h2]; simp)]
    rw [if_neg (by simpa [List.length_eq_zero] using h3)]
    exact ⟨_, rfl⟩

/-- C8, witness for `claim8_counters_and_summary` at a concrete entry
and a concrete run. -/
theorem claim8_witness :
    ((processEntry [⟨"c1", "Professional", some "Work tasks", false⟩] 0 1
        "2024-07-25\nfoo"
        (.parsed ⟨[⟨"Fixed bug", some 90, none, "bug,fix", "c1"⟩]⟩)
        (fun _ => some "disk full") ⟨⟨0, [], [], []⟩, [], 0, 0, 0, 0⟩).totalActivities
      = (⟨⟨0, [], [], []⟩, [], 0, 0, 0, 0⟩ : RunState).totalActivities + 1)
      ∧ ((processEntry [⟨"c1", "Professional", some "Work tasks", false⟩] 0 1
          "2024-07-25\nfoo"
          (.parsed ⟨[⟨"Fixed bug", some 90, none, "bug,fix", "c1"⟩]⟩)
          (fun _ => some "disk full") ⟨⟨0, [], [], []⟩, [], 0, 0, 0, 0⟩).failureCount
        = (⟨⟨0, [], [], []⟩, [], 0, 0, 0, 0⟩ : RunState).failureCount + 1) := by
  have h := (claim8_counters_and_summary.1
    [⟨"c1", "Professional", some "Work tasks", false⟩] 0 1 "2024-07-25\nfoo"
    ⟨[⟨"Fixed bug", some 90, none, "bug,fix", "c1"⟩]⟩
    (fun _ => some "disk full") ⟨⟨0, [], [], []⟩, [], 0, 0, 0, 0⟩
    (by decide) (by decide))
  exact ⟨h.1, (h.2.2 ⟨0, by decide, by decide⟩).2⟩

/-- Every loop iteration increments exactly one of the two counters. -/
lemma processEntry_sum (categories : List Category) (i total : Nat)
    (entryText : String) (outcome : LLMOutcome) (pFail : Nat → Option String)
    (st : RunState) :
    (processEntry categories i total entryText outcome pFail st).successCount
        + (processEntry categories i total entryText outcome pFail st).failureCount
      = st.successCount + st.failureCount + 1 := by
  unfold processEntry
  dsimp only
  split
  · dsimp only
    omega
  · generalize extractAndClassifyActivities outcome categories
      (some (entryDate entryText)) = E
    obtain ⟨exLogs, exRes⟩ := E
    cases exRes with
    | none =>
        dsimp only
        omega
    | some data =>
        dsimp only
        generalize persistEntry st.db (entryDate entryText) data.activities pFail = P
        obtain ⟨db', pLogs, fail⟩ := P
        cases fail <;> (dsimp only; omega)

/-- The loop adds one counted outcome per entry. -/
lemma runEntries_sum (categories : List Category) (oracle : Nat → LLMOutcome)
    (pFail : Nat → Nat → Option String) (total : Nat)
    (entries : List String) :
    ∀ (i : Nat) (st : RunState),
      (runEntries categories oracle pFail total entries i st).successCount
          + (runEntries categories oracle pFail total entries i st).failureCount
        = st.successCount + st.failureCount + entries.length := by
  induction entries with
  | nil => intro i st; simp [runEntries]
  | cons e rest ih =>
      intro i st
      rw [runEntries]
      have h1 := ih (i + 1) (processEntry categories i total e (oracle i) (pFail i) st)
      have h2 := processEntry_sum categories i total e (oracle i) (pFail i) st
      simp only [List.length_cons]
      omega

/-- C10: each iteration of the per-entry loop increments exactly one of
`successCount` and `failureCount`, so a run that reaches the loop ends
with `successCount + failureCount` equal to the number of parsed
entries. -/
theorem claim10_counter_partition :
    (∀ (categories : List Category) (i total : Nat) (entryText : String)
        (outcome : LLMOutcome) (pFail : Nat → Option String) (st : RunState),
      (processEntry categories i total entryText outcome pFail st).successCount
          + (processEntry categories i total entryText outcome pFail st).failureCount
        = st.successCount + st.failureCount + 1)
      ∧ (∀ (categories : List Category) (journalText : String)
          (oracle : Nat → LLMOutcome) (pFail : Nat → Nat → Option String) (db0 : DB),
        categories.filter (fun c => ¬ c.isDefault) ≠ [] →
        (categories.filter (fun c => ¬ c.isDefault)).filter
            (fun c => jsTrim (c.description.getD "") = "") = [] →
        parseEntries journalText ≠ [] →
        (processJournalImport categories journalText oracle pFail db0).successCount
            + (processJournalImport categories journalText oracle pFail db0).failureCount
          = (parseEntries journalText).length) := by
  refine ⟨processEntry_sum, ?_⟩
  intro categories journalText oracle pFail db0 h1 h2 h3
  unfold processJournalImport
  rw [if_neg (by simpa [List.length_eq_zero] using h1)]
  rw [if_neg (by rw [h2]; simp)]
  rw [if_neg (by simpa [List.length_eq_zero] using h3)]
  have hsum := runEntries_sum (categories.filter (fun c => ¬ c.isDefault)) oracle pFail
    (parseEntries journalText).length (parseEntries journalText)
  dsimp only
  rw [hsum 0]
  dsimp only
  omega

/-- C10, witness for `claim10_counter_partition` at a concrete two-entry
run (one success, one extraction failure). -/
theorem claim10_witness :
    (processJournalImport [⟨"c1", "Professional", some "Work tasks", false⟩]
        "2024-07-25\nfoo\n2024-07-26\nbar"
        (fun i => if i = 0
          then .parsed ⟨[⟨"Fixed bug", some 90, none, "bug,fix", "c1"⟩]⟩
          else .schemaError)
        (fun _ _ => none) ⟨0, [], [], []⟩).successCount
      + (processJournalImport [⟨"c1", "Professional", some "Work tasks", false⟩]
          "2024-07-25\nfoo\n2024-07-26\nbar"
          (fun i => if i = 0
            then .parsed ⟨[⟨"Fixed bug", some 90, none, "bug,fix", "c1"⟩]⟩
            else .schemaError)
          (fun _ _ => none) ⟨0, [], [], []⟩).failureCount
      = (parseEntries "2024-07-25\nfoo\n2024-07-26\nbar").length :=
  claim10_counter_partition.2 [⟨"c1", "Professional", some "Work tasks", false⟩]
    "2024-07-25\nfoo\n2024-07-26\nbar"
    (fun i => if i = 0
      then .parsed ⟨[⟨"Fixed bug", some 90, none, "bug,fix", "c1"⟩]⟩
      else .schemaError)
    (fun _ _ => none) ⟨0, [], [], []⟩ (by decide) (by decide) (by decide)

/-- C2, counterexample: with one candidate of id `"a"` and a validated
batch response `["a", "a"]`, the reranker returns that candidate twice,
so its output can contain duplicate ids. -/
theorem claim2_counterexample :
    ¬ ((rerankActivities (fun _ => some ["a", "a"])
        [⟨"a", "d", none, none, "cat", "2024-01-01", []⟩]).map (·.id)).Nodup := by
  decide

/-- C2 (amended): `rerankActivities` never returns an activity that is
not present in the input candidate list; it offers no duplicate
protection, so a validated batch response repeating an id makes the same
candidate appear twice. -/
theorem claim2_rerank_subset (oracle : Nat → BatchOutcome)
    (activities : List RActivity) (x : RActivity)
    (h : x ∈ rerankActivities oracle activities) : x ∈ activities := by
  unfold rerankActivities at h
  split at h
  · simp at h
  · dsimp only at h
    split at h
    · exact List.mem_of_mem_take h
    · obtain ⟨id, _, hget⟩ := List.mem_filterMap.mp h
      exact mapGet_mem hget

/-- C2, witness for `claim2_rerank_subset` at a concrete input. -/
theorem claim2_witness :
    (⟨"a", "d", none, none, "cat", "2024-01-01", []⟩ : RActivity)
      ∈ [(⟨"a", "d", none, none, "cat", "2024-01-01", []⟩ : RActivity)] :=
  claim2_rerank_subset (fun _ => some ["a"])
    [⟨"a", "d", none, none, "cat", "2024-01-01", []⟩] _ (by decide)

/-- C3, counterexample: with one candidate and a validated batch response
holding only the unknown id `"zzz"`, the accumulated id list is
non-empty, so the fallback is not taken, every id is dropped by the
lookup, and the reranker returns the empty list although the input was
non-empty. -/
theorem claim3_counterexample :
    rerankActivities (fun _ => some ["zzz"])
        [⟨"a", "d", none, none, "cat", "2024-01-01", []⟩] = []
      ∧ ([⟨"a", "d", none, none, "cat", "2024-01-01", []⟩] : List RActivity) ≠ [] := by
  constructor
  · decide
  · decide

/-- C3 (amended): the first-15 fallback triggers exactly when the
*accumulated ranked-id list* (before the id lookup) is empty; in that
case the result is the first 15 candidates of the original order and is
non-empty whenever the input is.  (When the accumulator is non-empty but
every id is unknown, the result is empty despite a non-empty input, as
`claim3_counterexample` shows.) -/
theorem claim3_fallback (oracle : Nat → BatchOutcome) (activities : List RActivity)
    (hne : activities ≠ [])
    (hids : collectRankedIds oracle (batches activities) 0 = []) :
    rerankActivities oracle activities = activities.take 15
      ∧ rerankActivities oracle activities ≠ [] := by
  have hempty : activities.isEmpty = false := by
    simp [List.isEmpty_iff, hne]
  have hres : rerankActivities oracle activities = activities.take 15 := by
    unfold rerankActivities
    rw [hempty]
    simp only [Bool.false_eq_true, if_false, hids, List.isEmpty_nil, if_true]
  refine ⟨hres, ?_⟩
  rw [hres]
  intro htake
  cases activities with
  | nil => exact hne rfl
  | cons a l => simp at htake

/-- C3, witness for `claim3_fallback` at a concrete input (every batch
fails). -/
theorem claim3_witness :
    rerankActivities (fun _ => none)
        [⟨"a", "d", none, none, "cat", "2024-01-01", []⟩]
      = ([⟨"a", "d", none, none, "cat", "2024-01-01", []⟩] : List RActivity).take 15
    ∧ rerankActivities (fun _ => none)
        [⟨"a", "d", none, none, "cat", "2024-01-01", []⟩] ≠ [] :=
  claim3_fallback (fun _ => none)
    [⟨"a", "d", none, none, "cat", "2024-01-01", []⟩] (by decide) (by decide)

/-- C4, counterexample: on a model failure with the eight-token query
below, the fallback returns all eight tokens, so `generateSearchTerms`
can return more than 7 keywords. -/
theorem claim4_counterexample :
    (generateSearchTerms .failed "aaa bbb ccc ddd eee fff ggg hhh").length = 8 := by
  decide

/-- C4 (amended): every keyword returned by `generateSearchTerms` is a
non-empty string; a validated model response yields at most 7 keywords;
and in general the result length is bounded by the larger of 7 and the
fallback's length — the fallback keeps *every* query token longer than
2 characters and may therefore exceed 7.  A model response whose
validated keywords are all blank yields zero keywords even when the
fallback would not. -/
theorem claim4_planner_bounds (outcome : PlannerOutcome) (query : String) :
    (∀ k ∈ generateSearchTerms outcome query, k ≠ "")
      ∧ (∀ kws, outcome = .parsedJson kws → searchTermsSchemaOk kws = true →
          (generateSearchTerms outcome query).length ≤ 7)
      ∧ (generateSearchTerms outcome query).length
          ≤ max 7 (plannerFallback query).length := by
  have hfall : ∀ k ∈ plannerFallback query, k ≠ "" := by
    intro k hk hk0
    subst hk0
    have := (List.mem_filter.mp hk).2
    revert this
    decide
  refine ⟨?_, ?_, ?_⟩
  · intro k hk
    cases outcome with
    | failed => exact hfall k hk
    | parsedJson kws =>
        simp only [generateSearchTerms] at hk
        split at hk
        · intro hk0
          subst hk0
          have := (List.mem_filter.mp hk).2
          revert this
          decide
        · exact hfall k hk
  · intro kws hkws hok
    subst hkws
    simp only [generateSearchTerms, hok, if_true]
    have h1 : (kws.filter (fun k => jsTrim k ≠ "")).length ≤ kws.length :=
      List.length_filter_le _ _
    have h2 : kws.length ≤ 7 := by
      simp only [searchTermsSchemaOk, Bool.and_eq_true, decide_eq_true_eq] at hok
      exact hok.2
    omega
  · cases outcome with
    | failed => exact le_max_of_le_right (le_refl _)
    | parsedJson kws =>
        simp only [generateSearchTerms]
        split
        · rename_i hok
          have h1 : (kws.filter (fun k => jsTrim k ≠ "")).length ≤ kws.length :=
            List.length_filter_le _ _
          have h2 : kws.length ≤ 7 := by
            simp only [searchTermsSchemaOk, Bool.and_eq_true, decide_eq_true_eq] at hok
            exact hok.2
          exact le_max_of_le_left (by omega)
        · exact le_max_of_le_right (le_refl _)

/-- C4, witness for `claim4_planner_bounds` at a concrete input. -/
theorem claim4_witness : ("hello" : String) ≠ "" :=
  (claim4_planner_bounds .failed "hello there").1 "hello" (by decide)

/-- C9: `generateWeeklyReport` returns `none` on empty input, and
returns `some d` exactly when the input was non-empty, the model call
produced parsed content `d`, and `d` satisfies the cardinality bounds of
`WeeklyReportSchema` — so any failure (request error, timeout, empty
content, malformed JSON, schema mismatch) yields `none`, never a
placeholder value. -/
theorem claim9_weekly_report_contract :
    (∀ outcome, generateWeeklyReport outcome [] = none)
      ∧ (∀ outcome (activities : List RActivity) (d : WeeklyReportContent),
          generateWeeklyReport outcome activities = some d ↔
            (activities ≠ [] ∧ outcome = .parsedContent d
              ∧ weeklyReportSchemaOk d = true)) := by
  constructor
  · intro outcome
    simp [generateWeeklyReport]
  · intro outcome activities d
    constructor
    · intro h
      unfold generateWeeklyReport at h
      split at h
      · exact absurd h (by simp)
      · rename_i hne
        refine ⟨by simpa [List.isEmpty_iff] using hne, ?_⟩
        cases outcome with
        | failed => exact absurd h (by simp)
        | parsedContent d' =>
            dsimp only at h
            split at h
            · rename_i hok
              obtain rfl : d' = d := by simpa using h
              exact ⟨rfl, hok⟩
            · exact absurd h (by simp)
    · rintro ⟨hne, rfl, hok⟩
      unfold generateWeeklyReport
      rw [if_neg (by simpa [List.isEmpty_iff] using hne)]
      dsimp only
      rw [if_pos hok]

/-- C9, witness for `claim9_weekly_report_contract` at a concrete report
value satisfying the schema bounds. -/
theorem claim9_witness :
    generateWeeklyReport
        (.parsedContent
          ⟨"t", "s", ⟨0, 0, 0, 0, "r"⟩,
            [⟨"c", "d", none⟩, ⟨"c", "d", none⟩, ⟨"c", "d", none⟩],
            [⟨"x", 1, 1⟩, ⟨"x", 1, 1⟩, ⟨"x", 1, 1⟩], "i"⟩)
        [⟨"a", "d", none, none, "cat", "2024-01-01", []⟩]
      = some
          ⟨"t", "s", ⟨0, 0, 0, 0, "r"⟩,
            [⟨"c", "d", none⟩, ⟨"c", "d", none⟩, ⟨"c", "d", none⟩],
            [⟨"x", 1, 1⟩, ⟨"x", 1, 1⟩, ⟨"x", 1, 1⟩], "i"⟩ :=
  (claim9_weekly_report_contract.2 _ _ _).mpr ⟨by decide, rfl, by decide⟩

end Synapse
